import Mathlib

/-!
Shallow embedding of `src/mtp/machamp/models/machamp_model.py` (class
`MachampModel`): the batch task selector, the task dispatcher, the loss
aggregator (`forward`), the output humanizer (`make_output_human_readable`)
and the metric reducer (`get_metrics`).

Modelling conventions:
* Python `dict`s become association lists (`Dict α`) with Python semantics:
  a lookup returns the first (only) binding, `insert` overwrites in place
  keeping the original position, `d[k]` on a missing key is a `KeyError`,
  modelled with `Except String`.
* Tensors (embeddings, masks, losses, probability tensors) are opaque data
  for this core; they are modelled as rationals (`ℚ`), which is enough to
  state everything the dispatcher/aggregator/reducer does with them
  (equality, addition, zero test).
* The decoder collaborators (`self.decoders[task]`) are external models
  consumed through a narrow contract; each is modelled as a record of pure
  functions from the gold labels it is handed to the output dictionary it
  returns, plus its current metric dictionary.  The shared representation
  (`embedded_text`, `embedded_text_sent`, dropout) is decoder-internal
  detail that no claim depends on, so the representation argument is
  dropped from the decoder functions.
* `metadata[0]['col_idxs']` is modelled by the list of its keys (the code
  only tests membership in it); the metadata passthrough fields
  (`tokens`, `full_data`, ...) that `forward` copies verbatim into the
  output dictionary are not modelled, since nothing downstream reads them.
-/

namespace Machamp

/-- Association list with Python-`dict` semantics. -/
abbrev Dict (α : Type) := List (String × α)

/-- `d.get(k)` / `k in d`: first binding wins (keys are unique in a real
`dict`, so this is exact). -/
def Dict.find? {α : Type} (d : Dict α) (k : String) : Option α :=
  match d with
  | [] => none
  | (k', v) :: rest => if k' = k then some v else Dict.find? rest k

/-- `k in d`. -/
def Dict.holdsKey {α : Type} (d : Dict α) (k : String) : Bool :=
  (Dict.find? d k).isSome

/-- `d[k] = v`: overwrite in place, keeping insertion order, else append. -/
def Dict.insert {α : Type} (d : Dict α) (k : String) (v : α) : Dict α :=
  match d with
  | [] => [(k, v)]
  | (k', v') :: rest =>
      if k' = k then (k', v) :: rest else (k', v') :: Dict.insert rest k v

/-- `d[k]` as an expression: `KeyError` when the key is missing. -/
def Dict.getK {α : Type} (d : Dict α) (k : String) : Except String α :=
  match Dict.find? d k with
  | some v => Except.ok v
  | none => Except.error ("KeyError: " ++ k)

/-- Splitting a character list on a separator (Python `str.split(sep)`
semantics for a one-character separator: always at least one group, empty
groups kept). -/
def splitChars (sep : Char) : List Char → List (List Char)
  | [] => [[]]
  | c :: cs =>
    match splitChars sep cs with
    | [] => [[]]
    | g :: gs => if c = sep then [] :: g :: gs else (c :: g) :: gs

/-- Python `name.split(sep)` for a one-character separator. -/
def strSplit (s : String) (sep : Char) : List String :=
  (splitChars sep s.data).map fun l => String.mk l

/-- Python `s.lower()`. -/
def strToLower (s : String) : String := String.mk (s.data.map Char.toLower)

/-- Python `s.startswith(pre)`. -/
def strStartsWith (s pre : String) : Bool := pre.data.isPrefixOf s.data

/-- Python `s.endswith(suf)`. -/
def strEndsWith (s suf : String) : Bool :=
  suf.data.reverse.isPrefixOf s.data.reverse

/-- A metric value reported by a decoder: either a bare scalar or a nested
dictionary of named scalars (e.g. the LAS/UAS table of a dependency
decoder). -/
inductive MValue : Type
  | scalar (q : ℚ)
  | table (entries : Dict ℚ)
deriving DecidableEq

/-- A decoder collaborator (`self.decoders[task]`), reduced to its contract:
`forward` variants keyed by how many gold arguments the dispatcher passes,
the two humanization entry points, and its current metric dictionary. -/
structure Decoder : Type where
  /-- `decoder.forward(repr, gold)` for the single-gold task types
  (classification, unsupervised, seq2seq, default sequence labeling). -/
  forward1 : Option ℚ → Dict ℚ
  /-- `decoder.forward(repr, mask, gold_head_tags, gold_head_indices)` for
  dependency decoders. -/
  forwardDep : Option ℚ → Option ℚ → Dict ℚ
  /-- `decoder.make_output_human_readable(probs)`. -/
  humanize1 : ℚ → ℚ
  /-- `decoder.make_output_human_readable(dep_tags, dep_heads, mask)`,
  returning the `(rels, head_indices)` pair. -/
  humanizeDep : ℚ → ℚ → ℚ → ℚ × ℚ
  /-- The dictionary `decoder.get_metrics(reset)` currently reports. -/
  metrics : Dict MValue

/-- The model state fixed at construction: task registry plus decoders. -/
structure MachampModel : Type where
  tasks : List String
  task_types : List String
  decoders : String → Decoder

/-- The output dictionary built by `forward` (the passthrough metadata
fields are omitted, see the header comment). `loss := none` models the
absence of the `'loss'` key. -/
structure OutputDict : Type where
  logits : Dict ℚ
  class_probabilities : Dict ℚ
  loss : Option ℚ
  mask : ℚ
deriving DecidableEq

/-- A value held by the flat Python `output_dict` the humanizer mutates:
nested dictionaries (`'logits'`, `'class_probabilities'`), tensors
(`'mask'`, the `'loss'` scalar, humanized predictions), or the one-element
list the humanizer wraps an exactly-zero loss into. -/
inductive OVal : Type
  | tensor (q : ℚ)
  | table (d : Dict ℚ)
  | wrapped (l : List ℚ)
deriving DecidableEq

/-- Lines 61-68 of `forward`: the batch task selector.  The source pushes
onto the parallel lists `tasks_to_handle` / `task_types_to_handle`;
filtering the zipped registry is the same computation. -/
def tasks_to_handle (m : MachampModel) (col_idxs : List String) :
    List (String × String) :=
  (m.tasks.zip m.task_types).filter fun p =>
    let s2s_and_in := p.2 == "seq2seq" && col_idxs.contains (p.1 ++ "_target_words")
    let dep_and_in := p.2 == "dependency" && col_idxs.contains (p.1 ++ "_rels")
    s2s_and_in || dep_and_in || col_idxs.contains p.1

/-- Lines 116-118 of `forward`: the loss-inclusion test
(`dep_and_in or s2s_and_in or task in gold_labels`). -/
def lossIncluded (gold_labels : Dict ℚ) (task task_type : String) : Bool :=
  let dep_and_in := task_type == "dependency" && Dict.holdsKey gold_labels (task ++ "_rels")
  let s2s_and_in := task_type == "seq2seq" && Dict.holdsKey gold_labels (task ++ "_target_words")
  dep_and_in || s2s_and_in || Dict.holdsKey gold_labels task

/-- The decoder call of lines 88-111: the `pred_output` dictionary the
dispatcher obtains for a task, branch by branch (with the gold labels
looked up exactly as each branch does). -/
def predOutputFor (m : MachampModel) (gold_labels : Dict ℚ)
    (task task_type : String) : Dict ℚ :=
  if task_type = "classification" then
    (m.decoders task).forward1 (Dict.find? gold_labels task)
  else if task_type = "dependency" then
    (m.decoders task).forwardDep
      (Dict.find? gold_labels (task ++ "_rels"))
      (Dict.find? gold_labels (task ++ "_head_indices"))
  else if task_type = "unsupervised" then
    (m.decoders task).forward1 (Dict.find? gold_labels task)
  else if task_type = "seq2seq" then
    (m.decoders task).forward1 (Dict.find? gold_labels (task ++ "_target"))
  else
    (m.decoders task).forward1 (Dict.find? gold_labels task)

/-- Lines 88-111 of `forward`: one dispatch step.  Returns the decoder's
`pred_output` together with the updated `class_probabilities` dictionary;
a missing expected key in `pred_output` is the corresponding `KeyError`
(`unsupervised` decoders surface no probabilities). -/
def dispatchTask (m : MachampModel) (gold_labels : Dict ℚ) (cp : Dict ℚ)
    (task task_type : String) : Except String (Dict ℚ × Dict ℚ) :=
  if task_type = "classification" then
    (Dict.getK (predOutputFor m gold_labels task task_type) "class_probabilities").map
      fun v => (predOutputFor m gold_labels task task_type, Dict.insert cp task v)
  else if task_type = "dependency" then
    (Dict.getK (predOutputFor m gold_labels task task_type) (task ++ "_rels")).bind
      fun r =>
        (Dict.getK (predOutputFor m gold_labels task task_type)
            (task ++ "_head_indices")).map fun h =>
          (predOutputFor m gold_labels task task_type,
            Dict.insert (Dict.insert cp (task ++ "_rels") r)
              (task ++ "_head_indices") h)
  else if task_type = "unsupervised" then
    Except.ok (predOutputFor m gold_labels task task_type, cp)
  else if task_type = "seq2seq" then
    (Dict.getK (predOutputFor m gold_labels task task_type) "class_probabilities").map
      fun v => (predOutputFor m gold_labels task task_type, Dict.insert cp task v)
  else
    (Dict.getK (predOutputFor m gold_labels task task_type) "class_probabilities").map
      fun v => (predOutputFor m gold_labels task task_type, Dict.insert cp task v)

/-- Lines 113-114 of `forward`: `if 'loss' in pred_output:
logits[task] = pred_output['loss']`. -/
def logitsUpdate (lg : Dict ℚ) (task : String) (pred : Dict ℚ) : Dict ℚ :=
  match Dict.find? pred "loss" with
  | some v => Dict.insert lg task v
  | none => lg

/-- One iteration of the loop at lines 88-119 of `forward`.  The state is
`(logits, class_probabilities, loss)`. -/
def processTask (m : MachampModel) (gold_labels : Dict ℚ)
    (st : Dict ℚ × Dict ℚ × ℚ) (p : String × String) :
    Except String (Dict ℚ × Dict ℚ × ℚ) :=
  (dispatchTask m gold_labels st.2.1 p.1 p.2).bind fun pr =>
    if lossIncluded gold_labels p.1 p.2 then
      match Dict.find? pr.1 "loss" with
      | some v => Except.ok (logitsUpdate st.1 p.1 pr.1, pr.2, st.2.2 + v)
      | none => Except.error "KeyError: loss"
    else Except.ok (logitsUpdate st.1 p.1 pr.1, pr.2, st.2.2)

/-- Lines 51-133: `MachampModel.forward`.  `gold_labels` is the `**kwargs`
bundle; `col_idxs` stands for `metadata[0]['col_idxs']`.  The `'loss'` key
is written only when `gold_labels` is truthy, i.e. non-empty. -/
def MachampModel.forward (m : MachampModel) (col_idxs : List String)
    (gold_labels : Dict ℚ) (mask : ℚ) : Except String OutputDict :=
  ((tasks_to_handle m col_idxs).foldlM (processTask m gold_labels)
      ([], [], 0)).map fun st =>
    { logits := st.1
      class_probabilities := st.2.1
      loss := if gold_labels = [] then none else some st.2.2
      mask := mask }

/-- The branch-and-lookup behavior of one iteration of the loop at lines
140-149 of `make_output_human_readable`, evaluated directly against the
structured bundle `forward` returns (whose `class_probabilities` and
`mask` fields are exactly what the loop reads on a freshly returned
bundle).  The humanized values are collected in the side dictionary
`preds`: this definition is used only to state which lookups of a single
iteration can raise (claim C10); the full humanizer, with its writes into
the one flat output dictionary, is `MachampModel.make_output_human_readable`
below. -/
def humanizeStep (m : MachampModel) (od : OutputDict) (preds : Dict ℚ)
    (task : String) : Except String (Dict ℚ) :=
  let is_dep := m.task_types.getD (m.tasks.indexOf task) "" = "dependency"
  match Dict.find? od.class_probabilities task with
  | some v => Except.ok (Dict.insert preds task ((m.decoders task).humanize1 v))
  | none =>
    if is_dep then
      match Dict.find? od.class_probabilities (task ++ "_rels") with
      | some dep_tags =>
        match Dict.find? od.class_probabilities (task ++ "_head_indices") with
        | some dep_heads =>
          let r := (m.decoders task).humanizeDep dep_tags dep_heads od.mask
          Except.ok (Dict.insert (Dict.insert preds (task ++ "_rels") r.1)
            (task ++ "_head_indices") r.2)
        | none => Except.error ("KeyError: " ++ (task ++ "_head_indices"))
      | none => Except.ok preds
    else Except.ok preds

/-- The flat Python dictionary `forward` hands back, in its insertion
order: `'logits'` and `'class_probabilities'` (line 84), `'loss'` when
emitted (line 122), `'mask'` (line 132); the metadata passthrough entries
are omitted as before. -/
def OutputDict.toDict (od : OutputDict) : Dict OVal :=
  [("logits", OVal.table od.logits),
    ("class_probabilities", OVal.table od.class_probabilities)] ++
  (match od.loss with
   | some q => [("loss", OVal.tensor q)]
   | none => []) ++
  [("mask", OVal.tensor od.mask)]

/-- Lines 140-149 of `make_output_human_readable`: one iteration of the
per-task loop, operating on the one flat output dictionary exactly as the
source does.  `output_dict['class_probabilities']` is re-read every
iteration (a `KeyError`/`TypeError` when missing or overwritten by a
task-named write), membership and subscripting go against that nested
dictionary, the dependency branch reads `output_dict['mask']` unguarded,
and the humanized predictions are written into the same flat dictionary
under `task`, `task + '_rels'`, `task + '_head_indices'` — so they can
collide with the `'loss'` entry. -/
def humanizeTask (m : MachampModel) (od : Dict OVal) (task : String) :
    Except String (Dict OVal) :=
  match Dict.find? od "class_probabilities" with
  | some (OVal.table cp) =>
    match Dict.find? cp task with
    | some v =>
      Except.ok (Dict.insert od task
        (OVal.tensor ((m.decoders task).humanize1 v)))
    | none =>
      if m.task_types.getD (m.tasks.indexOf task) "" = "dependency" then
        match Dict.find? cp (task ++ "_rels") with
        | some dep_tags =>
          match Dict.find? cp (task ++ "_head_indices") with
          | some dep_heads =>
            match Dict.find? od "mask" with
            | some (OVal.tensor mask) =>
              Except.ok (Dict.insert
                (Dict.insert od (task ++ "_rels")
                  (OVal.tensor
                    ((m.decoders task).humanizeDep dep_tags dep_heads mask).1))
                (task ++ "_head_indices")
                (OVal.tensor
                  ((m.decoders task).humanizeDep dep_tags dep_heads mask).2))
            | some _ => Except.error "TypeError: mask is not a tensor"
            | none => Except.error "KeyError: mask"
          | none => Except.error ("KeyError: " ++ (task ++ "_head_indices"))
        | none => Except.ok od
      else Except.ok od
  | some _ => Except.error "TypeError: class_probabilities is not a dict"
  | none => Except.error "KeyError: class_probabilities"

/-- Lines 135-153: `make_output_human_readable` on the one flat output
dictionary.  After the per-task loop it reads `output_dict['loss']`
unguarded (a `KeyError` when absent — but the loop itself may have written
that key) and wraps an exactly-zero tensor loss into a one-element list;
comparing a non-tensor value with `0` is Python `False`, so such a value
is returned as is. -/
def MachampModel.make_output_human_readable (m : MachampModel)
    (od : Dict OVal) : Except String (Dict OVal) :=
  (m.tasks.foldlM (humanizeTask m) od).bind fun od' =>
    match Dict.find? od' "loss" with
    | some (OVal.tensor q) =>
      if q = 0 then Except.ok (Dict.insert od' "loss" (OVal.wrapped [q]))
      else Except.ok od'
    | some _ => Except.ok od'
    | none => Except.error "KeyError: loss"

/-- `task_metric[sub]`: subscripting a decoder metric value.  Subscripting a
bare scalar is Python's `TypeError`; a missing sub-key is a `KeyError`. -/
def MValue.sub (v : MValue) (k : String) : Except String ℚ :=
  match v with
  | MValue.scalar _ => Except.error "TypeError: float is not subscriptable"
  | MValue.table t =>
    match Dict.find? t k with
    | some q => Except.ok q
    | none => Except.error ("KeyError: " ++ k)

/-- Lines 160-174 of `get_metrics`: classify one reported metric by the
suffix after the last `/` and extract the scalar to store; an unrecognized
suffix is only logged (`logger.error`) and the entry is dropped. -/
def reduceEntry (acc : Dict MValue) (name : String) (v : MValue) :
    Except String (Dict MValue) :=
  let suffix := (strSplit name '/').getLastD ""
  if suffix = "acc" ∨ suffix = "ppl" then
    Except.ok (Dict.insert acc name v)
  else if strToLower suffix = "las" then
    (v.sub "LAS").map fun q => Dict.insert acc name (MValue.scalar q)
  else if suffix = "micro-f1" ∨ suffix = "macro-f1" then
    (v.sub "fscore").map fun q => Dict.insert acc name (MValue.scalar q)
  else if suffix = "span_f1" then
    (v.sub "f1-measure-overall").map fun q => Dict.insert acc name (MValue.scalar q)
  else if suffix = "multi_span_f1" then
    (v.sub "f1-measure-overall").map fun q => Dict.insert acc name (MValue.scalar q)
  else if suffix = "bleu" then
    (v.sub "BLEU").map fun q => Dict.insert acc name (MValue.scalar q)
  else
    Except.ok acc

/-- The concatenated stream of metric entries the loop at lines 159-160
iterates over: `for task in self.tasks: for name, v in
decoders[task].get_metrics(reset).items()`. -/
def allMetricEntries (m : MachampModel) : List (String × MValue) :=
  (m.tasks.map fun t => (m.decoders t).metrics).flatten

/-- Folding `reduceEntry` over a stream of reported metric entries. -/
def reduceList (l : List (String × MValue)) : Except String (Dict MValue) :=
  l.foldlM (fun acc p => reduceEntry acc p.1 p.2) []

/-- Lines 158-174 of `get_metrics`: the reduced (flat) metric dictionary. -/
def reduceMetrics (m : MachampModel) : Except String (Dict MValue) :=
  reduceList (allMetricEntries m)

/-- Lines 176-178 of `get_metrics`: the tracked name set (`metrics_to_track`);
a list with the same membership as the Python `set`. -/
def metrics_to_track (m : MachampModel) : List String :=
  (m.tasks.zip m.task_types).map fun p =>
    if p.2 ≠ "dependency" then p.1 else "las"

/-- `set(name.split("/")).intersection(metrics_to_track)` is truthy. -/
def trackedHit (tracked : List String) (name : String) : Bool :=
  (strSplit name '/').any fun c => tracked.contains c

/-- `metric_sum += metric` (a `TypeError` when the stored value is still a
nested dictionary). -/
def addMetric (s : ℚ) (v : MValue) : Except String ℚ :=
  match v with
  | MValue.scalar q => Except.ok (s + q)
  | MValue.table _ => Except.error "TypeError: unsupported operand"

/-- Lines 180-184 of `get_metrics`: the composite sum over the reduced
dictionary. -/
def compositeSum (ms : Dict MValue) (tracked : List String) : Except String ℚ :=
  ms.foldlM (fun s p =>
    if !strStartsWith p.1 "_" && trackedHit tracked p.1 then
      if !strEndsWith p.1 "ppl" then addMetric s p.2 else Except.ok s
    else Except.ok s) 0

/-- Lines 157-189: the value returned by `get_metrics` (the reduced
dictionary with the composite sum stored under `".run/.sum"`).  The
returned dictionary does not depend on `reset`; `reset` only clears the
decoders' internal counters (see `get_metrics_state`). -/
def get_metrics_out (m : MachampModel) : Except String (Dict MValue) :=
  (reduceMetrics m).bind fun ms =>
    (compositeSum ms (metrics_to_track m)).map fun s =>
      Dict.insert ms ".run/.sum" (MValue.scalar s)

/-- The decoder-state side effect of `get_metrics`: each queried decoder
clears its running counters when `reset` is true and is untouched when
`reset` is false. -/
def get_metrics_state (m : MachampModel) (reset : Bool) : MachampModel :=
  if reset then
    { m with decoders := fun t =>
        if m.tasks.contains t then { m.decoders t with metrics := [] }
        else m.decoders t }
  else m

/-- `MachampModel.get_metrics(reset)`: the reported dictionary together with
the post-call model state. -/
def MachampModel.get_metrics (m : MachampModel) (reset : Bool) :
    Except String (Dict MValue) × MachampModel :=
  (get_metrics_out m, get_metrics_state m reset)

/-- `e` models a raised exception. -/
def raises {α : Type} (e : Except String α) : Bool :=
  match e with
  | Except.error _ => true
  | Except.ok _ => false

/-! ### Specification-side definitions

These follow the wording of the specification (and of the claims), to be
compared against the source-derived definitions above. -/

/-- Activity as the spec's section 4.1 words it: for sequence-to-sequence
only `<task>_target_words`, for dependency only `<task>_rels`, otherwise
`<task>`. -/
def activeClaimed (col_idxs : List String) (task ty : String) : Bool :=
  if ty = "seq2seq" then col_idxs.contains (task ++ "_target_words")
  else if ty = "dependency" then col_idxs.contains (task ++ "_rels")
  else col_idxs.contains task

/-- Activity as the code actually decides it: the type-specific key, or the
plain task name, is among the columns. -/
def activeAmended (col_idxs : List String) (task ty : String) : Bool :=
  (if ty = "seq2seq" then col_idxs.contains (task ++ "_target_words")
   else if ty = "dependency" then col_idxs.contains (task ++ "_rels")
   else false) || col_idxs.contains task

/-- Loss inclusion as the claim words it: presence of the per-type gold key
only (dependency: `<task>_rels`, sequence-to-sequence:
`<task>_target_words`, otherwise `<task>`). -/
def lossIncludedClaimed (gold_labels : Dict ℚ) (task ty : String) : Bool :=
  if ty = "dependency" then Dict.holdsKey gold_labels (task ++ "_rels")
  else if ty = "seq2seq" then Dict.holdsKey gold_labels (task ++ "_target_words")
  else Dict.holdsKey gold_labels task

/-- The aggregated loss as the code computes it, written as a closed-form
sum: over the active tasks passing the code's inclusion test, the `'loss'`
entry of the task's `pred_output`. -/
def aggregatedLoss (m : MachampModel) (col_idxs : List String)
    (gold_labels : Dict ℚ) : ℚ :=
  (((tasks_to_handle m col_idxs).filter fun p =>
      lossIncluded gold_labels p.1 p.2).map fun p =>
    (Dict.find? (predOutputFor m gold_labels p.1 p.2) "loss").getD 0).sum

/-- The aggregated loss as claim C1 words it: the sum over active tasks
whose per-type gold key (and only that key) is present. -/
def aggregatedLossClaimed (m : MachampModel) (col_idxs : List String)
    (gold_labels : Dict ℚ) : ℚ :=
  (((tasks_to_handle m col_idxs).filter fun p =>
      lossIncludedClaimed gold_labels p.1 p.2).map fun p =>
    (Dict.find? (predOutputFor m gold_labels p.1 p.2) "loss").getD 0).sum

/-- The scalar content of a reduced metric value (`0` for a nested table,
which the composite sum can never successfully add anyway). -/
def mvalOr0 (v : MValue) : ℚ :=
  match v with
  | MValue.scalar q => q
  | MValue.table _ => 0

/-- The composite score as the spec words it: the sum of every extracted
metric whose slash-separated name components intersect the tracked set,
whose name does not start with an underscore and does not end in `ppl`. -/
def compositeSumSpec (ms : Dict MValue) (tracked : List String) : ℚ :=
  ((ms.filter fun p =>
      !strStartsWith p.1 "_" && trackedHit tracked p.1 &&
        !strEndsWith p.1 "ppl").map
    fun p => mvalOr0 p.2).sum

/-- Whether a metric name carries one of the suffixes `get_metrics`
recognizes (after the last `/`). -/
def recognizedSuffix (name : String) : Bool :=
  let suffix := (strSplit name '/').getLastD ""
  suffix == "acc" || suffix == "ppl" || strToLower suffix == "las" ||
    suffix == "micro-f1" || suffix == "macro-f1" || suffix == "span_f1" ||
    suffix == "multi_span_f1" || suffix == "bleu"

/-! ### Concrete instances used by counterexamples and witnesses -/

/-- A decoder that reports nothing at all. -/
def decoder0 : Decoder :=
  { forward1 := fun _ => []
    forwardDep := fun _ _ => []
    humanize1 := fun q => q
    humanizeDep := fun a b _ => (a, b)
    metrics := [] }

/-- A registry with no tasks. -/
def emptyModel : MachampModel :=
  { tasks := [], task_types := [], decoders := fun _ => decoder0 }

/-- The output `forward` produces for `emptyModel` on an empty gold bundle. -/
def outEmpty : OutputDict :=
  { logits := [], class_probabilities := [], loss := none, mask := 0 }

/-- A dependency decoder reporting both probability tensors and a loss. -/
def decC1 : Decoder :=
  { forward1 := fun _ => []
    forwardDep := fun _ _ => [("t_rels", 1), ("t_head_indices", 2), ("loss", 5)]
    humanize1 := fun q => q
    humanizeDep := fun a b _ => (a, b)
    metrics := [] }

/-- One dependency task `t`. -/
def cmC1 : MachampModel :=
  { tasks := ["t"], task_types := ["dependency"], decoders := fun _ => decC1 }

/-- What `cmC1.forward ["t_rels"] [("t", 9)] 0` produces: the gold bundle
holds the plain name `t` but not `t_rels`, yet the decoder loss is summed. -/
def outC1 : OutputDict :=
  { logits := [("t", 5)]
    class_probabilities := [("t_rels", 1), ("t_head_indices", 2)]
    loss := some (0 + 5)
    mask := 0 }

/-- One dependency task `t` with an inert decoder (the selector never calls
decoders). -/
def cmC2 : MachampModel :=
  { tasks := ["t"], task_types := ["dependency"], decoders := fun _ => decoder0 }

/-- Decoder whose metric dictionary reports `task_a/acc = 0.8`. -/
def decC4a : Decoder :=
  { decoder0 with metrics := [("task_a/acc", MValue.scalar (4/5))] }

/-- Decoder whose metric dictionary reports
`task_b/las = {LAS: 0.6, UAS: 0.7}`. -/
def decC4b : Decoder :=
  { decoder0 with
    metrics := [("task_b/las", MValue.table [("LAS", 3/5), ("UAS", 7/10)])] }

/-- The fixture of claim C4: tasks `task_a` (non-dependency) and `task_b`
(dependency), so the tracked set is `{task_a, las}`. -/
def cmC4 : MachampModel :=
  { tasks := ["task_a", "task_b"]
    task_types := ["classification", "dependency"]
    decoders := fun t => if t = "task_a" then decC4a else decC4b }

/-- The reduced metric dictionary of `cmC4`. -/
def msC4 : Dict MValue :=
  [("task_a/acc", MValue.scalar (4/5)), ("task_b/las", MValue.scalar (3/5))]

/-- An output dictionary whose aggregated loss is exactly zero. -/
def odC5 : OutputDict :=
  { logits := [], class_probabilities := [], loss := some 0, mask := 0 }

/-- A decoder for a task literally named `loss`: it reports probabilities
(humanizing to `42`) and a loss of `0.0001`. -/
def decC5x : Decoder :=
  { decoder0 with
    forward1 := fun _ => [("class_probabilities", 42), ("loss", 1/10000)] }

/-- The fixture refuting claim C5: a classification task literally named
`loss`, whose humanized prediction overwrites the aggregated loss entry. -/
def cmC5x : MachampModel :=
  { tasks := ["loss"], task_types := ["classification"]
    decoders := fun _ => decC5x }

/-- What `cmC5x.forward ["loss"] [("loss", 9)] 0` produces: aggregated loss
`0.0001`, and a class-probability entry under the key `loss`. -/
def outC5x : OutputDict :=
  { logits := [("loss", 1/10000)]
    class_probabilities := [("loss", 42)]
    loss := some (0 + 1/10000)
    mask := 0 }

/-- A decoder for a task named `loss` that reports only probabilities. -/
def decC9x : Decoder :=
  { decoder0 with forward1 := fun _ => [("class_probabilities", 3)] }

/-- The fixture refuting claim C9: a classification task literally named
`loss`, run in pure inference (empty gold bundle). -/
def cmC9x : MachampModel :=
  { tasks := ["loss"], task_types := ["classification"]
    decoders := fun _ => decC9x }

/-- What `cmC9x.forward ["loss"] [] 0` produces: no `'loss'` key, but a
class-probability entry under the key `loss`. -/
def outC9x : OutputDict :=
  { logits := [], class_probabilities := [("loss", 3)], loss := none
    mask := 0 }

/-- One classification task `t` with an inert decoder. -/
def cmC6 : MachampModel :=
  { tasks := ["t"], task_types := ["classification"], decoders := fun _ => decoder0 }

/-- A decoder reporting a recognized metric and one with an unrecognized
suffix. -/
def decC7 : Decoder :=
  { decoder0 with
    metrics := [("task_a/acc", MValue.scalar 1), ("task_a/weird", MValue.scalar 2)] }

/-- The same decoder without the unrecognized entry. -/
def decC7d : Decoder :=
  { decoder0 with metrics := [("task_a/acc", MValue.scalar 1)] }

/-- One task whose decoder reports an unrecognized metric suffix. -/
def cmC7 : MachampModel :=
  { tasks := ["task_a"], task_types := ["classification"], decoders := fun _ => decC7 }

/-- The same registry with the unrecognized entry never reported. -/
def cmC7d : MachampModel :=
  { tasks := ["task_a"], task_types := ["classification"], decoders := fun _ => decC7d }

/-- A sequence-to-sequence decoder reporting probabilities and a loss. -/
def decC10 : Decoder :=
  { decoder0 with forward1 := fun _ => [("class_probabilities", 1), ("loss", 2)] }

/-- The fixture refuting claim C10: a sequence-to-sequence task literally
named `t_rels` next to a dependency task `t`. -/
def cmC10 : MachampModel :=
  { tasks := ["t_rels", "t"]
    task_types := ["seq2seq", "dependency"]
    decoders := fun _ => decC10 }

/-- What `cmC10.forward ["t_rels_target_words"] [("t_rels", 7)] 0` produces:
`class_probabilities` holds `t_rels` (written by the seq2seq task) but no
`t_head_indices`. -/
def outC10 : OutputDict :=
  { logits := [("t_rels", 2)]
    class_probabilities := [("t_rels", 1)]
    loss := some (0 + 2)
    mask := 0 }

/-- A well-named dependency registry for the amended claim C10. -/
def cmC10w : MachampModel :=
  { tasks := ["t"], task_types := ["dependency"], decoders := fun _ => decC1 }

/-- What `cmC10w.forward ["t_rels"] [] 0` produces. -/
def outC10w : OutputDict :=
  { logits := [("t", 5)]
    class_probabilities := [("t_rels", 1), ("t_head_indices", 2)]
    loss := none
    mask := 0 }

/-! ### Basic lemmas about the embedding's dictionaries and `Except` -/

@[simp]
theorem exceptOk_bind {α β : Type} (a : α) (f : α → Except String β) :
    (Except.ok a : Except String α) >>= f = f a := rfl

@[simp]
theorem exceptError_bind {α β : Type} (e : String) (f : α → Except String β) :
    (Except.error e : Except String α) >>= f = Except.error e := rfl

theorem exceptMap_ok {α β : Type} {f : α → β} {e : Except String α} {b : β}
    (h : e.map f = Except.ok b) : ∃ a, e = Except.ok a ∧ f a = b := by
  cases e with
  | error s => simp [Except.map] at h
  | ok a => exact ⟨a, rfl, by simpa [Except.map] using h⟩

theorem exceptBind_ok {α β : Type} {f : α → Except String β}
    {e : Except String α} {b : β} (h : e.bind f = Except.ok b) :
    ∃ a, e = Except.ok a ∧ f a = Except.ok b := by
  cases e with
  | error s => simp [Except.bind] at h
  | ok a => exact ⟨a, rfl, by simpa [Except.bind] using h⟩

theorem Dict.find?_insert {α : Type} (d : Dict α) (k j : String) (v : α) :
    Dict.find? (Dict.insert d k v) j =
      if k = j then some v else Dict.find? d j := by
  induction d with
  | nil => simp [Dict.insert, Dict.find?]
  | cons a rest ih =>
    obtain ⟨a1, a2⟩ := a
    by_cases hak : a1 = k
    · subst hak
      by_cases hj : a1 = j <;> simp [Dict.insert, Dict.find?, hj]
    · by_cases hj : a1 = j
      · have hkj : ¬k = j := fun hk => hak (hj.trans hk.symm)
        have hjk : ¬j = k := fun hk => hkj hk.symm
        simp [Dict.insert, Dict.find?, hak, hj, hkj, hjk]
      · simp [Dict.insert, Dict.find?, hak, hj, ih]

theorem Dict.holdsKey_insert {α : Type} (d : Dict α) (k j : String) (v : α) :
    Dict.holdsKey (Dict.insert d k v) j =
      if k = j then true else Dict.holdsKey d j := by
  simp only [Dict.holdsKey, Dict.find?_insert]
  split <;> simp

/-! ### Inversion of `forward` -/

theorem forward_ok_parts (m : MachampModel) (col : List String)
    (gold : Dict ℚ) (mask : ℚ) (out : OutputDict)
    (hok : MachampModel.forward m col gold mask = Except.ok out) :
    ∃ st, (tasks_to_handle m col).foldlM (processTask m gold) ([], [], 0) =
        Except.ok st ∧
      out = ⟨st.1, st.2.1, if gold = [] then none else some st.2.2, mask⟩ := by
  unfold MachampModel.forward at hok
  obtain ⟨st, h1, h2⟩ := exceptMap_ok hok
  exact ⟨st, h1, h2.symm⟩

/-- C3, helper: the `'loss'` key is present in the bundle `forward` returns
exactly when the gold bundle is non-empty. -/
theorem forward_ok_loss_none (m : MachampModel) (col : List String)
    (gold : Dict ℚ) (mask : ℚ) (out : OutputDict)
    (hok : MachampModel.forward m col gold mask = Except.ok out) :
    out.loss = none ↔ gold = [] := by
  obtain ⟨st, _, h2⟩ := forward_ok_parts m col gold mask out hok
  rw [h2]
  by_cases hg : gold = [] <;> simp [hg]

/-- C3: for a batch whose gold-label bundle is empty the bundle returned by
`forward` contains no `'loss'` key, and whenever the gold bundle is
non-empty `forward` emits a `'loss'` key. -/
theorem claim_C3_loss_key_iff_gold (m : MachampModel) (col : List String)
    (gold : Dict ℚ) (mask : ℚ) (out : OutputDict)
    (hok : MachampModel.forward m col gold mask = Except.ok out) :
    out.loss = none ↔ gold = [] :=
  forward_ok_loss_none m col gold mask out hok

theorem claim_C3_witness :
    outEmpty.loss = none ↔ ([] : Dict ℚ) = [] :=
  claim_C3_loss_key_iff_gold emptyModel [] [] 0 outEmpty rfl

/-- No `<x>_rels` key can be the key `loss`. -/
theorem rels_ne_loss (a : String) : a ++ "_rels" ≠ "loss" := by
  intro h
  have hd : a.data ++ "_rels".data = "loss".data := by
    rw [← String.data_append, h]
  have hr : ("_rels".data).reverse ++ a.data.reverse =
      ("loss".data).reverse := by
    rw [← List.reverse_append, hd]
  have h1 : ("_rels".data).reverse = ['s', 'l', 'e', 'r', '_'] := rfl
  have h2 : ("loss".data).reverse = ['s', 's', 'o', 'l'] := rfl
  rw [h1, h2] at hr
  injection hr with he1 hr1
  injection hr1 with he2 hr2
  exact absurd he2 (by decide)

/-- No `<x>_head_indices` key can be the key `loss`. -/
theorem head_indices_ne_loss (a : String) : a ++ "_head_indices" ≠ "loss" := by
  intro h
  have hd : a.data ++ "_head_indices".data = "loss".data := by
    rw [← String.data_append, h]
  have hr : ("_head_indices".data).reverse ++ a.data.reverse =
      ("loss".data).reverse := by
    rw [← List.reverse_append, hd]
  have h1 : ("_head_indices".data).reverse =
      ['s', 'e', 'c', 'i', 'd', 'n', 'i', '_', 'd', 'a', 'e', 'h', '_'] := rfl
  have h2 : ("loss".data).reverse = ['s', 's', 'o', 'l'] := rfl
  rw [h1, h2] at hr
  injection hr with he1 hr1
  injection hr1 with he2 hr2
  exact absurd he2 (by decide)

/-- A successful humanizer iteration leaves the dictionary unchanged, or
adds one entry under the task name, or the joint `_rels`/`_head_indices`
pair. -/
theorem humanizeTask_ok_shape (m : MachampModel) (od od' : Dict OVal)
    (task : String) (hok : humanizeTask m od task = Except.ok od') :
    od' = od ∨ (∃ v, od' = Dict.insert od task v) ∨
    (∃ v w, od' = Dict.insert (Dict.insert od (task ++ "_rels") v)
      (task ++ "_head_indices") w) := by
  unfold humanizeTask at hok
  split at hok
  · split at hok
    · injection hok with h
      exact Or.inr (Or.inl ⟨_, h.symm⟩)
    · split at hok
      · split at hok
        · split at hok
          · split at hok
            · injection hok with h
              exact Or.inr (Or.inr ⟨_, _, h.symm⟩)
            · exact absurd hok (by simp)
            · exact absurd hok (by simp)
          · exact absurd hok (by simp)
        · injection hok with h
          exact Or.inl h.symm
      · injection hok with h
        exact Or.inl h.symm
  · exact absurd hok (by simp)
  · exact absurd hok (by simp)

/-- An iteration for a task not literally named `loss` never touches the
`'loss'` entry. -/
theorem humanizeTask_loss_key (m : MachampModel) (od od' : Dict OVal)
    (task : String) (ht : task ≠ "loss")
    (hok : humanizeTask m od task = Except.ok od') :
    Dict.find? od' "loss" = Dict.find? od "loss" := by
  rcases humanizeTask_ok_shape m od od' task hok with h | ⟨v, h⟩ | ⟨v, w, h⟩
  · rw [h]
  · rw [h, Dict.find?_insert, if_neg ht]
  · rw [h, Dict.find?_insert, if_neg (head_indices_ne_loss task),
      Dict.find?_insert, if_neg (rels_ne_loss task)]

/-- The humanizer loop preserves the `'loss'` entry when no task is
literally named `loss`. -/
theorem foldlM_humanizeTask_loss_key (m : MachampModel) :
    ∀ (l : List String), (∀ task ∈ l, task ≠ "loss") →
      ∀ (od od' : Dict OVal),
        l.foldlM (humanizeTask m) od = Except.ok od' →
        Dict.find? od' "loss" = Dict.find? od "loss" := by
  intro l
  induction l with
  | nil =>
    intro _ od od' h
    simp only [List.foldlM_nil] at h
    injection h with h
    rw [← h]
  | cons task rest ih =>
    intro hl od od' h
    rw [List.foldlM_cons] at h
    cases h1 : humanizeTask m od task with
    | error e => rw [h1] at h; simp at h
    | ok od1 =>
      rw [h1] at h
      simp only [exceptOk_bind] at h
      rw [ih (fun q hq => hl q (List.mem_cons_of_mem task hq)) od1 od' h,
        humanizeTask_loss_key m od od1 task
          (hl task (List.mem_cons_self task rest)) h1]

/-- C5, counterexample: a classification task literally named `loss`.  Its
humanized prediction (`42`) overwrites the aggregated loss (`0.0001`)
inside the loop, so the non-zero loss is *not* left unchanged: the final
`'loss'` entry is `42`. -/
theorem claim_C5_counterexample :
    MachampModel.forward cmC5x ["loss"] [("loss", 9)] 0 =
      Except.ok outC5x ∧
    outC5x.loss = some (0 + 1/10000) ∧
    ((0 : ℚ) + 1/10000 ≠ 0) ∧
    MachampModel.make_output_human_readable cmC5x
        (OutputDict.toDict outC5x) =
      Except.ok [("logits", OVal.table [("loss", 1/10000)]),
        ("class_probabilities", OVal.table [("loss", 42)]),
        ("loss", OVal.tensor 42), ("mask", OVal.tensor 0)] ∧
    ((42 : ℚ) ≠ 0 + 1/10000) :=
  ⟨rfl, rfl, by norm_num, rfl, by norm_num⟩

/-- C5, amended: provided no task in the registry is literally named
`loss` (so the loop cannot overwrite the `'loss'` entry), the humanizer
replaces an exactly-zero aggregated loss by the one-element sequence
containing it, and leaves any non-zero loss as the bare scalar. -/
theorem claim_C5_amended (m : MachampModel) (od od' : Dict OVal) (q : ℚ)
    (hnoloss : ∀ task ∈ m.tasks, task ≠ "loss")
    (hq : Dict.find? od "loss" = some (OVal.tensor q))
    (hok : MachampModel.make_output_human_readable m od = Except.ok od') :
    Dict.find? od' "loss" =
      if q = 0 then some (OVal.wrapped [q]) else some (OVal.tensor q) := by
  unfold MachampModel.make_output_human_readable at hok
  obtain ⟨od'', hfold, hrest⟩ := exceptBind_ok hok
  have hkey : Dict.find? od'' "loss" = some (OVal.tensor q) := by
    rw [foldlM_humanizeTask_loss_key m m.tasks hnoloss od od'' hfold, hq]
  rw [hkey] at hrest
  have hrest' : (if q = 0 then
      Except.ok (Dict.insert od'' "loss" (OVal.wrapped [q]))
    else Except.ok od'') = Except.ok od' := hrest
  by_cases hq0 : q = 0
  · rw [if_pos hq0] at hrest'
    injection hrest' with h
    rw [← h, Dict.find?_insert, if_pos rfl, if_pos hq0]
  · rw [if_neg hq0] at hrest'
    injection hrest' with h
    rw [← h, if_neg hq0]
    exact hkey

theorem claim_C5_witness :
    Dict.find? (Dict.insert (OutputDict.toDict odC5) "loss"
        (OVal.wrapped [0])) "loss" =
      if (0 : ℚ) = 0 then some (OVal.wrapped [0])
      else some (OVal.tensor 0) :=
  claim_C5_amended cmC6 (OutputDict.toDict odC5)
    (Dict.insert (OutputDict.toDict odC5) "loss" (OVal.wrapped [0])) 0
    (by decide) rfl rfl

/-- C9, counterexample: a classification task literally named `loss`, run
with an empty gold bundle.  `forward` emits no `'loss'` key, yet the
humanizer's loop *creates* one from the task's prediction, so the final
lookup succeeds and the humanizer returns a bundle instead of raising. -/
theorem claim_C9_counterexample :
    MachampModel.forward cmC9x ["loss"] [] 0 = Except.ok outC9x ∧
    outC9x.loss = none ∧
    MachampModel.make_output_human_readable cmC9x
        (OutputDict.toDict outC9x) =
      Except.ok [("logits", OVal.table []),
        ("class_probabilities", OVal.table [("loss", 3)]),
        ("mask", OVal.tensor 0), ("loss", OVal.tensor 3)] ∧
    raises (MachampModel.make_output_human_readable cmC9x
      (OutputDict.toDict outC9x)) = false :=
  ⟨rfl, rfl, rfl, rfl⟩

/-- C9, amended: provided no task in the registry is literally named
`loss`, the humanizer raises a key-lookup error (instead of returning a
humanized bundle) on every bundle `forward` produces from an empty gold
bundle — the pure-inference case, where the bundle lacks a `'loss'` key. -/
theorem claim_C9_amended (m : MachampModel) (col : List String)
    (gold : Dict ℚ) (mask : ℚ) (out : OutputDict)
    (hg : gold = [])
    (hnoloss : ∀ task ∈ m.tasks, task ≠ "loss")
    (hok : MachampModel.forward m col gold mask = Except.ok out) :
    raises (MachampModel.make_output_human_readable m
      (OutputDict.toDict out)) = true := by
  have hloss : out.loss = none :=
    (forward_ok_loss_none m col gold mask out hok).mpr hg
  have hkey : Dict.find? (OutputDict.toDict out) "loss" = none := by
    unfold OutputDict.toDict
    rw [hloss]
    rfl
  unfold MachampModel.make_output_human_readable
  cases hf : m.tasks.foldlM (humanizeTask m) (OutputDict.toDict out) with
  | error e => simp [Except.bind, raises]
  | ok od' =>
    have hk := foldlM_humanizeTask_loss_key m m.tasks hnoloss
      (OutputDict.toDict out) od' hf
    rw [hkey] at hk
    simp [Except.bind, hk, raises]

theorem claim_C9_witness :
    raises (MachampModel.make_output_human_readable cmC6
      (OutputDict.toDict outEmpty)) = true :=
  claim_C9_amended cmC6 [] [] 0 outEmpty rfl (by decide) rfl

/-- C8: with `reset = false` the metric reducer leaves the decoder state
untouched, so a second call yields the identical output mapping (composite
key included). -/
theorem claim_C8_idempotent (m : MachampModel) :
    (MachampModel.get_metrics (MachampModel.get_metrics m false).2 false).1 =
      (MachampModel.get_metrics m false).1 := rfl

/-- C6, counterexample: with no active task but a non-empty gold bundle,
`forward` does emit a `'loss'` key (value `0`), contradicting the claim
that an empty active-task set emits no loss key. -/
theorem claim_C6_counterexample :
    tasks_to_handle cmC6 [] = [] ∧
    MachampModel.forward cmC6 [] [("t", 1)] 0 =
      Except.ok ⟨[], [], some 0, 0⟩ ∧
    (OutputDict.mk [] [] (some 0) 0).loss ≠ none :=
  ⟨rfl, rfl, by simp⟩

/-- C6, amended: with an empty active-task set `forward` succeeds with an
empty class-probability mapping; the `'loss'` key is absent exactly when
the gold bundle is also empty (otherwise it is emitted with value `0`);
and with no reported metrics the reduced mapping is just the composite key
with the neutral sum `0`. -/
theorem claim_C6_amended (m : MachampModel) (col : List String)
    (gold : Dict ℚ) (mask : ℚ)
    (h1 : tasks_to_handle m col = [])
    (h2 : allMetricEntries m = []) :
    MachampModel.forward m col gold mask =
      Except.ok ⟨[], [], if gold = [] then none else some 0, mask⟩ ∧
    get_metrics_out m = Except.ok [(".run/.sum", MValue.scalar 0)] := by
  constructor
  · unfold MachampModel.forward
    rw [h1]
    rfl
  · unfold get_metrics_out reduceMetrics
    rw [h2]
    rfl

/-- The batch task selector's filter predicate coincides with
`activeAmended`. -/
theorem active_pred_eq (col : List String) (task ty : String) :
    ((ty == "seq2seq" && col.contains (task ++ "_target_words")) ||
      (ty == "dependency" && col.contains (task ++ "_rels")) ||
      col.contains task) = activeAmended col task ty := by
  unfold activeAmended
  by_cases h1 : ty = "seq2seq"
  · simp [h1]
  · by_cases h2 : ty = "dependency"
    · have h1b : (ty == "seq2seq") = false := by simp [h1]
      simp [h1b, h2, h1]
    · have h1b : (ty == "seq2seq") = false := by simp [h1]
      have h2b : (ty == "dependency") = false := by simp [h2]
      simp [h1b, h2b, h1, h2]

/-- C2, counterexample: a dependency task whose `<task>_rels` column is
absent but whose plain name is among the columns is active in the code,
while the claim says it is not. -/
theorem claim_C2_counterexample :
    (("t", "dependency") ∈ tasks_to_handle cmC2 ["t"]) ∧
    activeClaimed ["t"] "t" "dependency" = false := by
  constructor
  · decide
  · decide

/-- C2, amended: a task is active iff its type-specific key (seq2seq:
`<task>_target_words`, dependency: `<task>_rels`) *or* its plain name is
among the first example's columns; registry membership and order are
preserved. -/
theorem claim_C2_amended (m : MachampModel) (col : List String)
    (task ty : String) :
    (task, ty) ∈ tasks_to_handle m col ↔
      ((task, ty) ∈ m.tasks.zip m.task_types ∧
        activeAmended col task ty = true) := by
  unfold tasks_to_handle
  rw [List.mem_filter]
  constructor
  · rintro ⟨hmem, hp⟩
    have hp' : ((ty == "seq2seq" && col.contains (task ++ "_target_words")) ||
        (ty == "dependency" && col.contains (task ++ "_rels")) ||
        col.contains task) = true := hp
    exact ⟨hmem, (active_pred_eq col task ty).symm.trans hp'⟩
  · rintro ⟨hmem, hp⟩
    exact ⟨hmem, (active_pred_eq col task ty).trans hp⟩

theorem claim_C2_witness :
    (("t", "dependency") ∈ tasks_to_handle cmC2 ["t_rels"]) ↔
      ((("t", "dependency") ∈ cmC2.tasks.zip cmC2.task_types) ∧
        activeAmended ["t_rels"] "t" "dependency" = true) :=
  claim_C2_amended cmC2 ["t_rels"] "t" "dependency"

/-- An entry with an unrecognized suffix is only logged: the reduction step
returns the accumulator unchanged and never raises. -/
theorem reduceEntry_unrecognized (name : String) (v : MValue)
    (acc : Dict MValue) (h : recognizedSuffix name = false) :
    reduceEntry acc name v = Except.ok acc := by
  unfold recognizedSuffix at h
  simp only [Bool.or_eq_false_iff, beq_eq_false_iff_ne, ne_eq] at h
  obtain ⟨⟨⟨⟨⟨⟨⟨h1, h2⟩, h3⟩, h4⟩, h5⟩, h6⟩, h7⟩, h8⟩ := h
  unfold reduceEntry
  simp only [List.getLastD_eq_getLast?] at h1 h2 h3 h4 h5 h6 h7 h8
  simp [h1, h2, h3, h4, h5, h6, h7, h8]

/-- Skipping lemma: dropping an unrecognized entry anywhere in the reported
metric stream leaves the whole reduction unchanged. -/
theorem foldlM_reduce_skip (n : String) (v : MValue)
    (hsuf : recognizedSuffix n = false) :
    ∀ (l1 l2 : List (String × MValue)) (acc : Dict MValue),
      (l1 ++ (n, v) :: l2).foldlM
          (fun acc p => reduceEntry acc p.1 p.2) acc =
        (l1 ++ l2).foldlM (fun acc p => reduceEntry acc p.1 p.2) acc := by
  intro l1
  induction l1 with
  | nil =>
    intro l2 acc
    simp [List.foldlM_cons, reduceEntry_unrecognized n v acc hsuf]
  | cons p rest ih =>
    intro l2 acc
    simp only [List.cons_append, List.foldlM_cons]
    cases h : reduceEntry acc p.1 p.2 with
    | error e => simp
    | ok b => simp [ih]

/-- C7: an unrecognized metric suffix does not raise; its entry is dropped
and the whole reduced mapping (composite key included) equals what a run
without that entry produces. -/
theorem claim_C7_unrecognized_dropped (m mdrop : MachampModel)
    (name : String) (v : MValue) (l1 l2 : List (String × MValue))
    (htasks : mdrop.tasks = m.tasks) (htypes : mdrop.task_types = m.task_types)
    (hm : allMetricEntries m = l1 ++ (name, v) :: l2)
    (hmd : allMetricEntries mdrop = l1 ++ l2)
    (hsuf : recognizedSuffix name = false) :
    get_metrics_out m = get_metrics_out mdrop ∧
      (∀ acc : Dict MValue, reduceEntry acc name v = Except.ok acc) := by
  constructor
  · unfold get_metrics_out reduceMetrics reduceList metrics_to_track
    rw [hm, hmd, htasks, htypes, foldlM_reduce_skip name v hsuf]
  · intro acc
    exact reduceEntry_unrecognized name v acc hsuf

theorem claim_C7_witness :
    get_metrics_out cmC7 = get_metrics_out cmC7d :=
  (claim_C7_unrecognized_dropped cmC7 cmC7d "task_a/weird" (MValue.scalar 2)
    [("task_a/acc", MValue.scalar 1)] [] rfl rfl rfl rfl (by decide)).1

/-- The composite-sum fold, when it succeeds, computes the filtered sum of
scalar metric values on top of its accumulator. -/
theorem compositeSum_fold_ok (tracked : List String) :
    ∀ (ms : Dict MValue) (s0 s : ℚ),
      ms.foldlM (fun s p =>
          if !strStartsWith p.1 "_" && trackedHit tracked p.1 then
            if !strEndsWith p.1 "ppl" then addMetric s p.2 else Except.ok s
          else Except.ok s) s0 = Except.ok s →
      s = s0 + ((ms.filter fun p =>
          !strStartsWith p.1 "_" && trackedHit tracked p.1 &&
            !strEndsWith p.1 "ppl").map fun p => mvalOr0 p.2).sum := by
  intro ms
  induction ms with
  | nil =>
    intro s0 s h
    simp only [List.foldlM_nil] at h
    injection h with h
    simp [h]
  | cons p rest ih =>
    intro s0 s h
    rw [List.foldlM_cons] at h
    by_cases h1 : (!strStartsWith p.1 "_" && trackedHit tracked p.1) = true
    · by_cases h2 : (!strEndsWith p.1 "ppl") = true
      · rw [if_pos h1, if_pos h2] at h
        have hcond : (!strStartsWith p.1 "_" && trackedHit tracked p.1 &&
            !strEndsWith p.1 "ppl") = true := by rw [h1, h2]; rfl
        cases hp : p.2 with
        | scalar q =>
          rw [hp] at h
          simp only [addMetric, exceptOk_bind] at h
          have hrec := ih (s0 + q) s h
          simp only [List.filter_cons, hcond, if_true, List.map_cons,
            List.sum_cons, hrec, hp, mvalOr0]
          ring
        | table t =>
          rw [hp] at h
          simp [addMetric] at h
      · rw [if_pos h1, if_neg h2] at h
        simp only [exceptOk_bind] at h
        have hcond : (!strStartsWith p.1 "_" && trackedHit tracked p.1 &&
            !strEndsWith p.1 "ppl") = false := by
          rw [Bool.and_eq_false_iff]
          right
          exact Bool.eq_false_iff.mpr h2
        simp only [List.filter_cons, hcond]
        simpa using ih s0 s h
    · rw [if_neg h1] at h
      simp only [exceptOk_bind] at h
      have hcond : (!strStartsWith p.1 "_" && trackedHit tracked p.1 &&
          !strEndsWith p.1 "ppl") = false := by
        rw [Bool.and_eq_false_iff]
        left
        exact Bool.eq_false_iff.mpr h1
      simp only [List.filter_cons, hcond]
      simpa using ih s0 s h

/-- C4: the metric reducer stores, under the distinguished key
`".run/.sum"`, the sum of every extracted metric whose slash-separated
name components intersect the tracked set, whose name neither starts with
an underscore nor ends in `ppl`. -/
theorem claim_C4_composite_sum (m : MachampModel) (ms : Dict MValue) (s : ℚ)
    (h1 : reduceMetrics m = Except.ok ms)
    (h2 : compositeSum ms (metrics_to_track m) = Except.ok s) :
    get_metrics_out m =
      Except.ok (Dict.insert ms ".run/.sum" (MValue.scalar s)) ∧
    s = compositeSumSpec ms (metrics_to_track m) := by
  constructor
  · unfold get_metrics_out
    rw [h1]
    show (compositeSum ms (metrics_to_track m)).map _ = _
    rw [h2]
    rfl
  · unfold compositeSum at h2
    have := compositeSum_fold_ok (metrics_to_track m) ms 0 s h2
    rw [this, zero_add]
    rfl

/-- The `0.8 + 0.6 = 1.4` instance of claim C4. -/
theorem c4_sum_value :
    compositeSum msC4 (metrics_to_track cmC4) = Except.ok (7/5) := by
  have h : compositeSum msC4 (metrics_to_track cmC4) =
      Except.ok ((0 : ℚ) + 4/5 + 3/5) := rfl
  rw [h]
  norm_num

theorem claim_C4_witness :
    get_metrics_out cmC4 =
      Except.ok (Dict.insert msC4 ".run/.sum" (MValue.scalar (7/5))) ∧
    (7/5 : ℚ) = compositeSumSpec msC4 (metrics_to_track cmC4) :=
  claim_C4_composite_sum cmC4 msC4 (7/5) rfl c4_sum_value

/-- A successful dispatch step returns exactly the decoder's `pred_output`
as its first component. -/
theorem dispatchTask_ok_pred (m : MachampModel) (gold : Dict ℚ) (cp : Dict ℚ)
    (task ty : String) (pr : Dict ℚ × Dict ℚ)
    (h : dispatchTask m gold cp task ty = Except.ok pr) :
    pr.1 = predOutputFor m gold task ty := by
  unfold dispatchTask at h
  by_cases h1 : ty = "classification"
  · rw [if_pos h1] at h
    obtain ⟨v, _, hfv⟩ := exceptMap_ok h
    rw [← hfv]
  · rw [if_neg h1] at h
    by_cases h2 : ty = "dependency"
    · rw [if_pos h2] at h
      obtain ⟨r, _, h'⟩ := exceptBind_ok h
      obtain ⟨w, _, hfw⟩ := exceptMap_ok h'
      rw [← hfw]
    · rw [if_neg h2] at h
      by_cases h3 : ty = "unsupervised"
      · rw [if_pos h3] at h
        injection h with h
        rw [← h]
      · rw [if_neg h3] at h
        by_cases h4 : ty = "seq2seq"
        · rw [if_pos h4] at h
          obtain ⟨v, _, hfv⟩ := exceptMap_ok h
          rw [← hfv]
        · rw [if_neg h4] at h
          obtain ⟨v, _, hfv⟩ := exceptMap_ok h
          rw [← hfv]

/-- A successful loop iteration adds to the running loss exactly the
decoder's reported loss when the inclusion test passes, and nothing
otherwise. -/
theorem processTask_ok_loss (m : MachampModel) (gold : Dict ℚ)
    (st st1 : Dict ℚ × Dict ℚ × ℚ) (p : String × String)
    (hok : processTask m gold st p = Except.ok st1) :
    st1.2.2 = st.2.2 +
      (if lossIncluded gold p.1 p.2 then
        (Dict.find? (predOutputFor m gold p.1 p.2) "loss").getD 0 else 0) := by
  unfold processTask at hok
  cases hd : dispatchTask m gold st.2.1 p.1 p.2 with
  | error e =>
    rw [hd] at hok
    simp [Except.bind] at hok
  | ok pr =>
    rw [hd] at hok
    have hpred := dispatchTask_ok_pred m gold st.2.1 p.1 p.2 pr hd
    simp only [Except.bind] at hok
    by_cases hinc : lossIncluded gold p.1 p.2 = true
    · rw [if_pos hinc] at hok
      cases hl : Dict.find? pr.1 "loss" with
      | none =>
        rw [hl] at hok
        exact absurd hok (by simp)
      | some v =>
        rw [hl] at hok
        injection hok with h
        rw [← h, if_pos hinc, ← hpred, hl]
        rfl
    · rw [if_neg hinc] at hok
      injection hok with h
      rw [← h, if_neg hinc, add_zero]

/-- The dispatch loop accumulates, on top of its initial loss, the sum of
the reported losses of the tasks passing the inclusion test. -/
theorem foldlM_processTask_loss (m : MachampModel) (gold : Dict ℚ) :
    ∀ (l : List (String × String)) (st st' : Dict ℚ × Dict ℚ × ℚ),
      l.foldlM (processTask m gold) st = Except.ok st' →
      st'.2.2 = st.2.2 + ((l.filter fun p => lossIncluded gold p.1 p.2).map
        fun p => (Dict.find? (predOutputFor m gold p.1 p.2) "loss").getD 0).sum := by
  intro l
  induction l with
  | nil =>
    intro st st' h
    simp only [List.foldlM_nil] at h
    injection h with h
    simp [h]
  | cons p rest ih =>
    intro st st' h
    rw [List.foldlM_cons] at h
    cases h1 : processTask m gold st p with
    | error e =>
      rw [h1] at h
      simp at h
    | ok st1 =>
      rw [h1] at h
      simp only [exceptOk_bind] at h
      have hstep := processTask_ok_loss m gold st st1 p h1
      have hrec := ih st1 st' h
      by_cases hinc : lossIncluded gold p.1 p.2 = true
      · rw [if_pos hinc] at hstep
        simp only [List.filter_cons, hinc, if_true, List.map_cons,
          List.sum_cons]
        rw [hrec, hstep]
        ring
      · rw [if_neg hinc] at hstep
        have hincf : lossIncluded gold p.1 p.2 = false :=
          Bool.eq_false_iff.mpr hinc
        simp only [List.filter_cons, hincf, Bool.false_eq_true, if_false]
        rw [hrec, hstep, add_zero]

/-- C1, counterexample: a dependency task active through `t_rels` whose
gold bundle holds the plain name `t` but not `t_rels`.  The claim's
per-type rule excludes it from the loss (sum `0`), yet the code adds the
decoder's loss `5`. -/
theorem claim_C1_counterexample :
    MachampModel.forward cmC1 ["t_rels"] [("t", 9)] 0 = Except.ok outC1 ∧
    outC1.loss = some (0 + 5) ∧
    aggregatedLossClaimed cmC1 ["t_rels"] [("t", 9)] = 0 ∧
    ((0 : ℚ) + 5) ≠ 0 :=
  ⟨rfl, rfl, rfl, by norm_num⟩

/-- C1, amended: whenever `forward` succeeds on a non-empty gold bundle,
the emitted loss is the sum of `pred_output['loss']` over exactly those
active tasks passing the code's inclusion test — per-type gold key
(dependency: `<task>_rels`, seq2seq: `<task>_target_words`) *or* the plain
task name present in the gold bundle; active tasks passing neither test
contribute nothing. -/
theorem claim_C1_amended (m : MachampModel) (col : List String)
    (gold : Dict ℚ) (mask : ℚ) (out : OutputDict)
    (hok : MachampModel.forward m col gold mask = Except.ok out)
    (hne : gold ≠ []) :
    out.loss = some (aggregatedLoss m col gold) := by
  obtain ⟨st, hfold, hout⟩ := forward_ok_parts m col gold mask out hok
  have hloss := foldlM_processTask_loss m gold (tasks_to_handle m col)
    ([], [], 0) st hfold
  rw [hout]
  simp only [if_neg hne]
  unfold aggregatedLoss
  rw [hloss]
  simp

theorem claim_C1_witness :
    outC1.loss = some (aggregatedLoss cmC1 ["t_rels"] [("t", 9)]) :=
  claim_C1_amended cmC1 ["t_rels"] [("t", 9)] 0 outC1 rfl (by decide)

/-- Appending the same suffix to different strings keeps them different. -/
theorem strAppend_cancel_right (a b s : String) (h : a ++ s = b ++ s) :
    a = b := by
  have hd : a.data ++ s.data = b.data ++ s.data := by
    rw [← String.data_append, ← String.data_append, h]
  exact String.ext (List.append_cancel_right hd)

/-- No `<x>_rels` key can coincide with a `<y>_head_indices` key. -/
theorem rels_ne_head_indices (a b : String) :
    a ++ "_rels" ≠ b ++ "_head_indices" := by
  intro h
  have hd : a.data ++ "_rels".data = b.data ++ "_head_indices".data := by
    rw [← String.data_append, ← String.data_append, h]
  have hr : ("_rels".data).reverse ++ a.data.reverse =
      ("_head_indices".data).reverse ++ b.data.reverse := by
    rw [← List.reverse_append, ← List.reverse_append, hd]
  have h1 : ("_rels".data).reverse = ['s', 'l', 'e', 'r', '_'] := rfl
  have h2 : ("_head_indices".data).reverse =
      ['s', 'e', 'c', 'i', 'd', 'n', 'i', '_', 'd', 'a', 'e', 'h', '_'] := rfl
  rw [h1, h2] at hr
  injection hr with he1 hr1
  injection hr1 with he2 hr2
  exact absurd he2 (by decide)

/-- A successful dispatch step touches `class_probabilities` in one of three
shapes: one entry under the task name, no entry, or the joint
`_rels`/`_head_indices` pair. -/
theorem dispatchTask_ok_cp (m : MachampModel) (gold : Dict ℚ) (cp : Dict ℚ)
    (task ty : String) (pr : Dict ℚ × Dict ℚ)
    (h : dispatchTask m gold cp task ty = Except.ok pr) :
    (∃ v, pr.2 = Dict.insert cp task v) ∨ pr.2 = cp ∨
    (∃ v w, pr.2 = Dict.insert (Dict.insert cp (task ++ "_rels") v)
      (task ++ "_head_indices") w) := by
  unfold dispatchTask at h
  by_cases h1 : ty = "classification"
  · rw [if_pos h1] at h
    obtain ⟨v, _, hfv⟩ := exceptMap_ok h
    exact Or.inl ⟨v, by rw [← hfv]⟩
  · rw [if_neg h1] at h
    by_cases h2 : ty = "dependency"
    · rw [if_pos h2] at h
      obtain ⟨r, _, h'⟩ := exceptBind_ok h
      obtain ⟨w, _, hfw⟩ := exceptMap_ok h'
      exact Or.inr (Or.inr ⟨r, w, by rw [← hfw]⟩)
    · rw [if_neg h2] at h
      by_cases h3 : ty = "unsupervised"
      · rw [if_pos h3] at h
        injection h with h
        exact Or.inr (Or.inl (by rw [← h]))
      · rw [if_neg h3] at h
        by_cases h4 : ty = "seq2seq"
        · rw [if_pos h4] at h
          obtain ⟨v, _, hfv⟩ := exceptMap_ok h
          exact Or.inl ⟨v, by rw [← hfv]⟩
        · rw [if_neg h4] at h
          obtain ⟨v, _, hfv⟩ := exceptMap_ok h
          exact Or.inl ⟨v, by rw [← hfv]⟩

/-- A successful loop iteration carries the dispatch step's
`class_probabilities` through unchanged. -/
theorem processTask_ok_cp (m : MachampModel) (gold : Dict ℚ)
    (st st1 : Dict ℚ × Dict ℚ × ℚ) (p : String × String)
    (hok : processTask m gold st p = Except.ok st1) :
    ∃ pr, dispatchTask m gold st.2.1 p.1 p.2 = Except.ok pr ∧
      st1.2.1 = pr.2 := by
  unfold processTask at hok
  cases hd : dispatchTask m gold st.2.1 p.1 p.2 with
  | error e =>
    rw [hd] at hok
    simp [Except.bind] at hok
  | ok pr =>
    rw [hd] at hok
    simp only [Except.bind] at hok
    refine ⟨pr, rfl, ?_⟩
    by_cases hinc : lossIncluded gold p.1 p.2 = true
    · rw [if_pos hinc] at hok
      cases hl : Dict.find? pr.1 "loss" with
      | none =>
        rw [hl] at hok
        exact absurd hok (by simp)
      | some v =>
        rw [hl] at hok
        injection hok with h
        rw [← h]
    · rw [if_neg hinc] at hok
      injection hok with h
      rw [← h]

/-- One loop iteration by a task that is not literally named `t_rels` or
`t_head_indices` preserves the joint presence of `t`'s two dependency
keys. -/
theorem processTask_preserves_pair (m : MachampModel) (gold : Dict ℚ)
    (t : String) (st st1 : Dict ℚ × Dict ℚ × ℚ) (p : String × String)
    (hz1 : p.1 ≠ t ++ "_rels") (hz2 : p.1 ≠ t ++ "_head_indices")
    (hok : processTask m gold st p = Except.ok st1)
    (hinv : Dict.holdsKey st.2.1 (t ++ "_rels") =
      Dict.holdsKey st.2.1 (t ++ "_head_indices")) :
    Dict.holdsKey st1.2.1 (t ++ "_rels") =
      Dict.holdsKey st1.2.1 (t ++ "_head_indices") := by
  obtain ⟨pr, hd, hcp⟩ := processTask_ok_cp m gold st st1 p hok
  rw [hcp]
  rcases dispatchTask_ok_cp m gold st.2.1 p.1 p.2 pr hd with
    ⟨v, hv⟩ | hv | ⟨v, w, hv⟩
  · rw [hv]
    simp only [Dict.holdsKey_insert, if_neg hz1, if_neg hz2]
    exact hinv
  · rw [hv]
    exact hinv
  · by_cases hpt : p.1 = t
    · rw [hpt] at hv
      have hHR : ¬(t ++ "_head_indices") = (t ++ "_rels") :=
        fun hh => rels_ne_head_indices t t hh.symm
      rw [hv]
      simp [Dict.holdsKey_insert, hHR]
    · have k1 : ¬(p.1 ++ "_head_indices") = (t ++ "_rels") :=
        fun hh => rels_ne_head_indices t p.1 hh.symm
      have k2 : ¬(p.1 ++ "_rels") = (t ++ "_rels") :=
        fun hh => hpt (strAppend_cancel_right p.1 t "_rels" hh)
      have k3 : ¬(p.1 ++ "_head_indices") = (t ++ "_head_indices") :=
        fun hh => hpt (strAppend_cancel_right p.1 t "_head_indices" hh)
      have k4 : ¬(p.1 ++ "_rels") = (t ++ "_head_indices") :=
        rels_ne_head_indices p.1 t
      rw [hv]
      simp only [Dict.holdsKey_insert, if_neg k1, if_neg k2, if_neg k3,
        if_neg k4]
      exact hinv

/-- The dispatch loop preserves the joint presence of `t`'s dependency
keys, provided no processed task is literally named after one of them. -/
theorem foldlM_processTask_pair (m : MachampModel) (gold : Dict ℚ)
    (t : String) :
    ∀ (l : List (String × String)),
      (∀ p ∈ l, p.1 ≠ t ++ "_rels" ∧ p.1 ≠ t ++ "_head_indices") →
      ∀ (st st' : Dict ℚ × Dict ℚ × ℚ),
        l.foldlM (processTask m gold) st = Except.ok st' →
        Dict.holdsKey st.2.1 (t ++ "_rels") =
          Dict.holdsKey st.2.1 (t ++ "_head_indices") →
        Dict.holdsKey st'.2.1 (t ++ "_rels") =
          Dict.holdsKey st'.2.1 (t ++ "_head_indices") := by
  intro l
  induction l with
  | nil =>
    intro _ st st' h hinv
    simp only [List.foldlM_nil] at h
    injection h with h
    rw [← h]
    exact hinv
  | cons p rest ih =>
    intro hl st st' h hinv
    rw [List.foldlM_cons] at h
    cases h1 : processTask m gold st p with
    | error e =>
      rw [h1] at h
      simp at h
    | ok st1 =>
      rw [h1] at h
      simp only [exceptOk_bind] at h
      have hz := hl p (List.mem_cons_self p rest)
      exact ih (fun q hq => hl q (List.mem_cons_of_mem p hq)) st1 st' h
        (processTask_preserves_pair m gold t st st1 p hz.1 hz.2 h1 hinv)

/-- C10, counterexample: a sequence-to-sequence task literally named
`t_rels` (activated through its `_target_words` column) writes
`class_probabilities['t_rels']` while the dependency task `t` stays
inactive, so the bundle holds `t_rels` without `t_head_indices` and the
humanizer's unguarded lookup fails. -/
theorem claim_C10_counterexample :
    MachampModel.forward cmC10 ["t_rels_target_words"] [("t_rels", 7)] 0 =
      Except.ok outC10 ∧
    (("t", "dependency") ∈ cmC10.tasks.zip cmC10.task_types) ∧
    Dict.holdsKey outC10.class_probabilities ("t" ++ "_rels") = true ∧
    Dict.holdsKey outC10.class_probabilities ("t" ++ "_head_indices") = false ∧
    MachampModel.make_output_human_readable cmC10 (OutputDict.toDict outC10) =
      Except.error ("KeyError: " ++ ("t" ++ "_head_indices")) :=
  ⟨rfl, by decide, rfl, rfl, rfl⟩

/-- C10, amended: provided no task in the registry is literally named
`<t>_rels` or `<t>_head_indices`, every bundle `forward` produces holds
`<t>_rels` in `class_probabilities` iff it holds `<t>_head_indices`, and
the humanizer's per-task step for `t` (which looks `<t>_head_indices` up
unguarded after checking only `<t>_rels`) cannot raise on it. -/
theorem claim_C10_amended (m : MachampModel) (col : List String)
    (gold : Dict ℚ) (mask : ℚ) (out : OutputDict) (t : String)
    (_hdep : (t, "dependency") ∈ m.tasks.zip m.task_types)
    (hnames : ∀ p ∈ m.tasks.zip m.task_types,
      p.1 ≠ t ++ "_rels" ∧ p.1 ≠ t ++ "_head_indices")
    (hok : MachampModel.forward m col gold mask = Except.ok out) :
    Dict.holdsKey out.class_probabilities (t ++ "_rels") =
      Dict.holdsKey out.class_probabilities (t ++ "_head_indices") ∧
    raises (humanizeStep m out [] t) = false := by
  obtain ⟨st, hfold, hout⟩ := forward_ok_parts m col gold mask out hok
  have hsub : ∀ p ∈ tasks_to_handle m col,
      p.1 ≠ t ++ "_rels" ∧ p.1 ≠ t ++ "_head_indices" :=
    fun p hp => hnames p (List.mem_of_mem_filter hp)
  have hcp : out.class_probabilities = st.2.1 := by rw [hout]
  have hpair : Dict.holdsKey out.class_probabilities (t ++ "_rels") =
      Dict.holdsKey out.class_probabilities (t ++ "_head_indices") := by
    rw [hcp]
    exact foldlM_processTask_pair m gold t (tasks_to_handle m col) hsub
      ([], [], 0) st hfold rfl
  refine ⟨hpair, ?_⟩
  simp only [humanizeStep]
  cases hft : Dict.find? out.class_probabilities t with
  | some v => simp [raises]
  | none =>
    by_cases hid : m.task_types.getD (m.tasks.indexOf t) "" = "dependency"
    · rw [if_pos hid]
      cases hfr : Dict.find? out.class_probabilities (t ++ "_rels") with
      | none => simp [raises]
      | some tags =>
        have hH : Dict.holdsKey out.class_probabilities
            (t ++ "_head_indices") = true := by
          rw [← hpair]
          simp [Dict.holdsKey, hfr]
        obtain ⟨heads, hfh⟩ : ∃ w, Dict.find? out.class_probabilities
            (t ++ "_head_indices") = some w := by
          cases hfh : Dict.find? out.class_probabilities
              (t ++ "_head_indices") with
          | none => rw [Dict.holdsKey, hfh] at hH; simp at hH
          | some w => exact ⟨w, rfl⟩
        rw [hfh]
        simp [raises]
    · rw [if_neg hid]
      simp [raises]

theorem claim_C10_witness :
    Dict.holdsKey outC10w.class_probabilities ("t" ++ "_rels") =
      Dict.holdsKey outC10w.class_probabilities ("t" ++ "_head_indices") :=
  (claim_C10_amended cmC10w ["t_rels"] [] 0 outC10w "t" (by decide)
    (by decide) rfl).1

theorem claim_C6_witness :
    MachampModel.forward cmC6 [] [("t", 1)] 0 =
      Except.ok ⟨[], [], if ([("t", 1)] : Dict ℚ) = [] then none else some 0, 0⟩ ∧
    get_metrics_out cmC6 = Except.ok [(".run/.sum", MValue.scalar 0)] :=
  claim_C6_amended cmC6 [] [("t", 1)] 0 rfl rfl

end Machamp
